import Mathlib

/-!
Shallow embedding of the notification-to-event conversion engine of
`ceilometer/event/converter.py` (classes `TraitDefinition`, `EventDefinition`
and `NotificationEventsConverter`), together with models of the small parts of
its runtime libraries that the engine calls into:

* `fnmatch.fnmatch` (shell-glob matching; on POSIX `os.path.normcase` is the
  identity, so no case folding happens),
* the subset of `jsonpath_rw` actually used by the rule files: a union of
  dotted key paths evaluated against a nested mapping, alternatives in
  declaration order,
* `timeutils.parse_isotime` followed by `timeutils.normalize_time`
  (ISO-8601 parsing, normalised to a naive UTC instant), modelled as
  microseconds since the Unix epoch,
* Python truthiness (`if when:`) and the `int()` / `float()` / `str()`
  coercions used by `TraitDefinition._convert_value`.

Python exceptions are modelled with `Except String`; the wall clock
(`timeutils.utcnow`) is passed in explicitly as a `now` parameter.
-/

namespace Ceilometer

deriving instance DecidableEq for Except

/-- Python `s.startswith('!')`.  (Stated over the character list: the
built-in byte-position `String.startsWith` does not reduce inside the
kernel.) -/
def startsWithBang (s : String) : Bool :=
  match s.data with
  | c :: _ => c = '!'
  | [] => false

/-- Python `s[1:]`. -/
def dropFirst (s : String) : String := String.mk (s.data.drop 1)

/-- Python `s.upper()`. -/
def pyUpper (s : String) : String := String.mk (s.data.map Char.toUpper)

/-- Python whitespace (`str.strip` default set). -/
def isPySpace (c : Char) : Bool :=
  c = ' ' ∨ c = '\t' ∨ c = '\n' ∨ c = '\r' ∨ c = '\x0b' ∨ c = '\x0c'

/-- Python `s.strip()` on a character list. -/
def trimChars (cs : List Char) : List Char :=
  ((cs.dropWhile isPySpace).reverse.dropWhile isPySpace).reverse

/-- A value of a deserialized notification body: the semi-structured document
model (scalars, sequences, string-keyed mappings).  Python `None` is `vnull`.
(Float scalars do not appear in any behaviour verified here and are left out
of the document model.) -/
inductive Value where
  | vnull : Value
  | vstr : String → Value
  | vint : Int → Value
  | vbool : Bool → Value
  | vlist : List Value → Value
  | vmap : List (String × Value) → Value
deriving Repr

/-- Python `value is None`. -/
def Value.isNone : Value → Bool
  | .vnull => true
  | _ => false

/-- A notification body: a Python dict from string keys to values. -/
abbrev Body := List (String × Value)

/-- Python `d.get(key)` / `d[key]` lookup on a dict, modelled as first match
in an association list. -/
def lookup : Body → String → Option Value
  | [], _ => none
  | (k, v) :: rest, key => if k = key then some v else lookup rest key

/-- Python truthiness of a value (`if when:`). -/
def truthy : Value → Bool
  | .vnull => false
  | .vstr s => !s.data.isEmpty
  | .vint n => n != 0
  | .vbool b => b
  | .vlist xs => !xs.isEmpty
  | .vmap kvs => !kvs.isEmpty

/-! ### `fnmatch.fnmatch`: shell-glob matching

`fnmatch.translate` turns a glob pattern into an anchored regex: `*` becomes
`.*`, `?` becomes `.`, `[seq]` / `[!seq]` become regex character classes
(with `]` literal in first position and an unterminated `[` taken literally),
and every other character matches itself.  The recursive matcher below
implements exactly that semantics. -/

/-- Scan a bracket expression for its closing `]`; returns the class body and
the remainder of the pattern, or `none` when the bracket is unterminated. -/
def scanClass : List Char → List Char → Option (List Char × List Char)
  | _, [] => none
  | acc, c :: rest =>
    if c = ']' then some (acc.reverse, rest) else scanClass (c :: acc) rest

/-- Parse the inside of a `[...]` glob class (the list of chars after the
opening `[`): negation flag, class body, remainder of the pattern. -/
def parseClass (cs : List Char) : Option (Bool × List Char × List Char) :=
  let (neg, cs1) :=
    match cs with
    | '!' :: rest => (true, rest)
    | _ => (false, cs)
  match cs1 with
  | ']' :: rest => (scanClass [']'] rest).map (fun p => (neg, p.1, p.2))
  | _ => (scanClass [] cs1).map (fun p => (neg, p.1, p.2))

/-- Does a character belong to a glob character class body (with `a-b`
ranges, a trailing `-` literal)? -/
def classMatches : List Char → Char → Bool
  | [], _ => false
  | a :: '-' :: b :: rest, c => (a ≤ c && c ≤ b) || classMatches rest c
  | a :: rest, c => a = c || classMatches rest c

/-- A compiled glob pattern element, mirroring the regex pieces produced by
`fnmatch.translate`: `star` is `.*`, `any` is `.`, `cls` a character class,
`lit` a self-matching character. -/
inductive GlobTok where
  | star : GlobTok
  | any : GlobTok
  | cls : Bool → List Char → GlobTok
  | lit : Char → GlobTok
deriving Repr

/-- Tokenize a glob pattern.  Each step consumes at least one input character,
so a fuel equal to the pattern length (supplied by `compileGlob`) is always
sufficient; the `0, _ => []` arm is unreachable from `compileGlob`. -/
def compileGlobAux : Nat → List Char → List GlobTok
  | _, [] => []
  | 0, _ :: _ => []
  | fuel + 1, '*' :: ps => .star :: compileGlobAux fuel ps
  | fuel + 1, '?' :: ps => .any :: compileGlobAux fuel ps
  | fuel + 1, '[' :: ps =>
    match parseClass ps with
    | none => .lit '[' :: compileGlobAux fuel ps
    | some (neg, body, rest) => .cls neg body :: compileGlobAux fuel rest
  | fuel + 1, c :: ps => .lit c :: compileGlobAux fuel ps

/-- Compile a glob pattern to its token list. -/
def compileGlob (p : List Char) : List GlobTok :=
  compileGlobAux p.length p

/-- Match a compiled glob pattern against the whole of a string.  `star`
may absorb any run of characters, hence the match against every suffix. -/
def tokMatch : List GlobTok → List Char → Bool
  | [], s => s.isEmpty
  | .star :: ts, s => s.tails.any (tokMatch ts)
  | .any :: _, [] => false
  | .any :: ts, _ :: s => tokMatch ts s
  | .cls _ _ :: _, [] => false
  | .cls neg body :: ts, c :: s => (classMatches body c != neg) && tokMatch ts s
  | .lit _ :: _, [] => false
  | .lit c :: ts, d :: s => c = d && tokMatch ts s

/-- Core glob matcher: does pattern `p` match the whole of string `s`? -/
def globMatch (p s : List Char) : Bool :=
  tokMatch (compileGlob p) s

/-- `fnmatch.fnmatch(name, pattern)` (POSIX: no case normalisation). -/
def fnmatch (name pattern : String) : Bool :=
  globMatch pattern.data name.data

/-! ### Timestamps: `timeutils.parse_isotime` + `timeutils.normalize_time`

An instant is modelled as microseconds since the Unix epoch (an `Int`).
`parse_isotime` parses ISO-8601 text (the `YYYY-MM-DD[T ]HH:MM[:SS[.ffffff]]`
with optional `Z`/`±HH:MM` zone shapes that notifications carry);
`normalize_time` shifts the result to naive UTC, which here simply means the
zone offset is subtracted.  Unparsable input raises `ValueError`. -/

/-- Base-10 value of a digit string. -/
def digitsToNat (cs : List Char) : Nat :=
  cs.foldl (fun n c => n * 10 + (c.toNat - 48)) 0

/-- Read exactly `k` digits from the front of the input. -/
def takeDigits (k : Nat) (cs : List Char) : Option (Nat × List Char) :=
  let pre := cs.take k
  if pre.length = k ∧ pre.all Char.isDigit then some (digitsToNat pre, cs.drop k)
  else none

/-- Require a literal character at the front of the input. -/
def expect (c : Char) : List Char → Option (List Char)
  | [] => none
  | x :: rest => if x = c then some rest else none

/-- Days from the epoch 1970-01-01 to the civil date `y-m-d` (proleptic
Gregorian calendar; Hinnant's `days_from_civil` algorithm). -/
def daysFromCivil (y m d : Int) : Int :=
  let y2 := if m ≤ 2 then y - 1 else y
  let era := Int.fdiv y2 400
  let yoe := y2 - era * 400
  let mp := Int.emod (m + 9) 12
  let doy := Int.fdiv (153 * mp + 2) 5 + d - 1
  let doe := yoe * 365 + Int.fdiv yoe 4 - Int.fdiv yoe 100 + doy
  era * 146097 + doe - 719468

def usPerSec : Int := 1000000

def usPerDay : Int := 86400000000

/-- Parse a `±HH:MM` zone offset body into minutes. -/
def parseOffsetNum (sign : Int) (cs : List Char) : Option (Int × List Char) := do
  let (h, r1) ← takeDigits 2 cs
  match r1 with
  | ':' :: r2 => do
    let (m, r3) ← takeDigits 2 r2
    pure (sign * ((h : Int) * 60 + m), r3)
  | _ => none

/-- Parse an optional zone designator; absence means UTC (the `iso8601`
library's default timezone). -/
def parseOffset : List Char → Option (Int × List Char)
  | [] => some (0, [])
  | 'Z' :: rest => some (0, rest)
  | '+' :: rest => parseOffsetNum 1 rest
  | '-' :: rest => parseOffsetNum (-1) rest
  | _ => none

/-- Parse `HH:MM[:SS[.ffffff]]` into microseconds since midnight (fraction
digits beyond microsecond precision are truncated). -/
def parseTimePart (cs : List Char) : Option (Nat × List Char) := do
  let (h, r1) ← takeDigits 2 cs
  let r2 ← expect ':' r1
  let (mi, r3) ← takeDigits 2 r2
  if 24 ≤ h ∨ 60 ≤ mi then none
  else
    match r3 with
    | ':' :: r4 => do
      let (sec, r5) ← takeDigits 2 r4
      if 60 ≤ sec then none
      else
        match r5 with
        | '.' :: r6 =>
          let ds := r6.takeWhile Char.isDigit
          if ds.isEmpty then none
          else
            let frac := digitsToNat ((ds ++ List.replicate 6 '0').take 6)
            pure ((h * 3600 + mi * 60 + sec) * 1000000 + frac,
                  r6.dropWhile Char.isDigit)
        | _ => pure ((h * 3600 + mi * 60 + sec) * 1000000, r5)
    | _ => pure ((h * 3600 + mi * 60) * 1000000, r3)

/-- Parse a full ISO-8601 instant; result is naive-UTC microseconds since the
epoch (the zone offset is already subtracted, i.e. `normalize_time` is
folded in). -/
def parseIsoChars (cs : List Char) : Option Int := do
  let (y, r1) ← takeDigits 4 cs
  let r2 ← expect '-' r1
  let (mo, r3) ← takeDigits 2 r2
  let r4 ← expect '-' r3
  let (d, r5) ← takeDigits 2 r4
  if mo < 1 ∨ 12 < mo ∨ d < 1 ∨ 31 < d then none
  else
    match r5 with
    | [] => pure (usPerDay * daysFromCivil y mo d)
    | sep :: r6 =>
      if sep = 'T' ∨ sep = ' ' then do
        let (tod, r7) ← parseTimePart r6
        let (off, r8) ← parseOffset r7
        if r8.isEmpty then
          pure (usPerDay * daysFromCivil y mo d + (tod : Int) - off * 60 * usPerSec)
        else none
      else none

/-- `timeutils.normalize_time(timeutils.parse_isotime(s))`: ISO-8601 text to
a naive-UTC instant.  Failure models the `ValueError` raised on unparsable
input. -/
def parse_isotime_utc (s : String) : Except String Int :=
  match parseIsoChars s.data with
  | some t => .ok t
  | none => .error ("Unable to parse date from: " ++ s)

/-! ### Trait types and Python coercions -/

/-- The four trait type tags of `models.Trait` used by the converter
(`TEXT_TYPE`, `INT_TYPE`, `FLOAT_TYPE`, `DATETIME_TYPE`). -/
inductive TraitType where
  | text | int | float | datetime
deriving DecidableEq, Repr

/-- `getattr(models.Trait, type_name.upper() + "_TYPE", None)` over the four
recognised trait types. -/
def traitTypeOfName (type_name : String) : Option TraitType :=
  match pyUpper type_name with
  | "TEXT" => some .text
  | "INT" => some .int
  | "FLOAT" => some .float
  | "DATETIME" => some .datetime
  | _ => none

/-- A converted trait value.  Floats are modelled as rationals: every decimal
literal the `float()` subset below accepts is represented exactly. -/
inductive TraitValue where
  | tvText : String → TraitValue
  | tvInt : Int → TraitValue
  | tvFloat : Rat → TraitValue
  | tvDatetime : Int → TraitValue
deriving DecidableEq, Repr

/-- Python `int(s)` on a string: optional surrounding whitespace, optional
sign, at least one digit; anything else raises `ValueError`. -/
def pyIntOfString (s : String) : Except String Int :=
  let p : Int × List Char :=
    match trimChars s.data with
    | '-' :: rest => (-1, rest)
    | '+' :: rest => (1, rest)
    | cs => (1, cs)
  if p.2 ≠ [] ∧ p.2.all Char.isDigit then .ok (p.1 * digitsToNat p.2)
  else .error ("invalid literal for int() with base 10: " ++ s)

/-- Python `int(value)`. -/
def pyInt : Value → Except String Int
  | .vint n => .ok n
  | .vbool b => .ok (if b then 1 else 0)
  | .vstr s => pyIntOfString s
  | _ => .error "int() argument must be a string or a number"

/-- Python `float(s)` on the plain decimal shapes notifications carry
(optional sign, digits, optional fraction); exponent and `inf`/`nan` forms
are outside the modelled subset. -/
def pyFloatOfString (s : String) : Except String Rat :=
  let p : Rat × List Char :=
    match trimChars s.data with
    | '-' :: rest => (-1, rest)
    | '+' :: rest => (1, rest)
    | cs => (1, cs)
  let ip := p.2.takeWhile Char.isDigit
  let rest := p.2.dropWhile Char.isDigit
  match rest with
  | [] =>
    if ip ≠ [] then .ok (p.1 * digitsToNat ip)
    else .error ("could not convert string to float: " ++ s)
  | '.' :: fp =>
    if fp.all Char.isDigit ∧ (ip ≠ [] ∨ fp ≠ []) then
      .ok (p.1 * ((digitsToNat ip : Rat) +
                  (digitsToNat fp : Rat) / ((10 : Rat) ^ fp.length)))
    else .error ("could not convert string to float: " ++ s)
  | _ => .error ("could not convert string to float: " ++ s)

/-- Python `float(value)`. -/
def pyFloat : Value → Except String Rat
  | .vint n => .ok n
  | .vbool b => .ok (if b then 1 else 0)
  | .vstr s => pyFloatOfString s
  | _ => .error "float() argument must be a string or a number"

/-- Python `str(value)` on scalars; container rendering details are
immaterial here (no rule extracts a container as a text trait). -/
def pyStr : Value → String
  | .vnull => "None"
  | .vstr s => s
  | .vint n => toString n
  | .vbool b => if b then "True" else "False"
  | .vlist _ => "[...]"
  | .vmap _ => "\x7b...\x7d"

/-! ### `TraitDefinition` -/

/-- A compiled trait extractor (`TraitDefinition.__init__` stores the name,
the compiled jsonpath union and the resolved trait type tag). -/
structure TraitDefinition where
  name : String
  traitType : TraitType
  fields : List (List String)
deriving DecidableEq, Repr

/-- Split a path expression at the dots. -/
def splitPathAux : List Char → List Char → List String
  | acc, [] => [String.mk acc.reverse]
  | acc, c :: rest =>
    if c = '.' then String.mk acc.reverse :: splitPathAux [] rest
    else splitPathAux (c :: acc) rest

/-- Compile one dotted jsonpath expression (e.g. `"payload.host"`) into its
key sequence — the subset of `jsonpath_rw` syntax the rule files use. -/
def parsePath (s : String) : List String := splitPathAux [] s.data

/-- Evaluate one key path against a document: the value reached through
nested mappings, or `none` when an intermediate key is missing. -/
def findPath : List String → Value → Option Value
  | [], v => some v
  | k :: ks, .vmap kvs =>
    match lookup kvs k with
    | some v => findPath ks v
    | none => none
  | _ :: _, _ => none

/-- `self.fields.find(body)`: evaluate the union of path alternatives in
declaration order, yielding every resolved value. -/
def resolvedValues (fields : List (List String)) (doc : Value) : List Value :=
  fields.filterMap (fun p => findPath p doc)

/-- The list comprehension in `to_trait`: resolved values with Python `None`
results removed (`if match.value is not None`). -/
def foundValues (td : TraitDefinition) (doc : Value) : List Value :=
  (resolvedValues td.fields doc).filter (fun v => !v.isNone)

/-- `models.Trait`: one named, typed, converted value. -/
structure Trait where
  name : String
  traitType : TraitType
  value : TraitValue
deriving DecidableEq, Repr

/-- `models.Event`: the conversion output record. -/
structure Event where
  eventType : String
  generated : Int
  traits : List Trait
deriving DecidableEq, Repr

/-- `TraitDefinition._convert_value`: dispatch on the trait type tag in the
source's order (int, float, datetime, else str). -/
def convert_value : TraitType → Value → Except String TraitValue
  | .int, v => (pyInt v).map .tvInt
  | .float, v => (pyFloat v).map .tvFloat
  | .datetime, v =>
    match v with
    | .vstr s => (parse_isotime_utc s).map .tvDatetime
    | _ => .error "parse_isotime expects a string"
  | .text, v => .ok (.tvText (pyStr v))

/-- `TraitDefinition.to_trait`: no non-null resolved value means no trait;
otherwise the first non-null resolved value is converted (a conversion
failure propagates as the error). -/
def TraitDefinition.to_trait (td : TraitDefinition) (doc : Value) :
    Except String (Option Trait) :=
  match foundValues td doc with
  | [] => .ok none
  | v :: _ =>
    (convert_value td.traitType v).map (fun tv => some ⟨td.name, td.traitType, tv⟩)

/-! ### Rule configuration and `EventDefinition` -/

/-- One trait definition in a rule's `traits` mapping: the optional `type`
key (defaulted to `"text"`) and the `fields` key, where a single string is
the one-element list; `none` models a missing key. -/
structure TraitCfg where
  type : Option String
  fields : Option (List String)
deriving DecidableEq, Repr

/-- One rule definition from the configuration: the `event_type` key, where
a single string is the one-element list, and the `traits` mapping; `none`
models a missing key. -/
structure DefCfg where
  event_type : Option (List String)
  traits : Option (List (String × TraitCfg))
deriving DecidableEq, Repr

/-- `TraitDefinition.__init__`: reject a missing `fields` key, then compile
the path alternatives and resolve the type name (rejecting an unrecognised
one). -/
def mkTraitDefinition (name : String) (cfg : TraitCfg) :
    Except String TraitDefinition :=
  let type_name := cfg.type.getD "text"
  match cfg.fields with
  | none => .error "Required field in trait definition not specified: fields"
  | some fs =>
    match traitTypeOfName type_name with
    | none => .error ("Invalid trait type " ++ type_name ++ " for trait " ++ name)
    | some tt => .ok ⟨name, tt, fs.map parsePath⟩

/-- `EventDefinition.DEFAULT_TRAITS`. -/
def DEFAULT_TRAITS : List (String × TraitCfg) :=
  [("message_id", ⟨some "text", some ["message_id"]⟩),
   ("service", ⟨some "text", some ["publisher_id"]⟩),
   ("request_id", ⟨some "text", some ["_context_request_id"]⟩),
   ("tenant_id", ⟨some "text", some ["_context_tenant"]⟩)]

/-- The include/exclude partition loop of `EventDefinition.__init__`: an
entry starting with `!` is an exclusion (with the `!` stripped), every other
entry an inclusion; declaration order is preserved in both lists. -/
def partitionTypes : List String → List String × List String
  | [] => ([], [])
  | t :: ts =>
    let p := partitionTypes ts
    if startsWithBang t then (p.1, dropFirst t :: p.2) else (t :: p.1, p.2)

/-- Dict insertion `self.traits[name] = td`: override an existing entry with
the same key in place, else append. -/
def insertTrait (ts : List (String × TraitDefinition)) (n : String)
    (td : TraitDefinition) : List (String × TraitDefinition) :=
  match ts with
  | [] => [(n, td)]
  | (m, e) :: rest =>
    if m = n then (n, td) :: rest else (m, e) :: insertTrait rest n td

/-- A compiled event rule: include/exclude pattern lists and the trait
extractor table (defaults merged with the rule's own entries). -/
structure EventDefinition where
  includedTypes : List String
  excludedTypes : List String
  traits : List (String × TraitDefinition)
deriving DecidableEq, Repr

/-- Build the trait table entries of a rule one by one (the construction
loops of `EventDefinition.__init__`), propagating the first definition
error. -/
def buildTraitDefs :
    List (String × TraitCfg) → Except String (List (String × TraitDefinition))
  | [] => .ok []
  | (n, tc) :: rest =>
    match mkTraitDefinition n tc with
    | .error e => .error e
    | .ok td =>
      match buildTraitDefs rest with
      | .error e => .error e
      | .ok rs => .ok ((n, td) :: rs)

/-- `EventDefinition.__init__`: require `event_type` and `traits`, partition
the type patterns, widen exclusion-only rules with an implicit `*`
inclusion, then populate the trait table with the defaults first and the
rule's own entries on top. -/
def mkEventDefinition (cfg : DefCfg) : Except String EventDefinition :=
  match cfg.event_type with
  | none => .error "Required field event_type not specified"
  | some ets =>
    match cfg.traits with
    | none => .error "Required field traits not specified"
    | some tcs =>
      let p := partitionTypes ets
      let inc := if p.2 ≠ [] ∧ p.1 = [] then ["*"] else p.1
      match buildTraitDefs DEFAULT_TRAITS with
      | .error e => .error e
      | .ok defaults =>
        match buildTraitDefs tcs with
        | .error e => .error e
        | .ok declared =>
          .ok ⟨inc, p.2,
               declared.foldl (fun acc nt => insertTrait acc nt.1 nt.2) defaults⟩

/-- `EventDefinition.included_type`: does any inclusion glob accept the
type? -/
def EventDefinition.included_type (ed : EventDefinition)
    (event_type : String) : Bool :=
  ed.includedTypes.any (fun t => fnmatch event_type t)

/-- `EventDefinition.excluded_type`: does any exclusion glob accept the
type? -/
def EventDefinition.excluded_type (ed : EventDefinition)
    (event_type : String) : Bool :=
  ed.excludedTypes.any (fun t => fnmatch event_type t)

/-- `EventDefinition.match_type`. -/
def EventDefinition.match_type (ed : EventDefinition)
    (event_type : String) : Bool :=
  ed.included_type event_type && !ed.excluded_type event_type

/-- `EventDefinition.is_catchall`: `'*' in self._included_types and not
self._excluded_types`. -/
def EventDefinition.is_catchall (ed : EventDefinition) : Bool :=
  ed.includedTypes.contains "*" && ed.excludedTypes.isEmpty

/-- `EventDefinition._extract_when`: `body.get('timestamp',
body.get('_context_timestamp'))`; a truthy result is parsed, anything else
falls back to the current wall-clock time (`now`). -/
def extract_when (now : Int) (body : Body) : Except String Int :=
  let whenVal :=
    match lookup body "timestamp" with
    | some v => v
    | none => (lookup body "_context_timestamp").getD .vnull
  if truthy whenVal then
    match whenVal with
    | .vstr s => parse_isotime_utc s
    | _ => .error "parse_isotime expects a string"
  else .ok now

/-- The trait-extraction comprehension in `EventDefinition.to_event`: run
every trait extractor in table order, keep the non-`None` results, propagate
the first conversion error. -/
def extractTraits (body : Body) :
    List (String × TraitDefinition) → Except String (List Trait)
  | [] => .ok []
  | (_, td) :: rest =>
    match td.to_trait (.vmap body) with
    | .error e => .error e
    | .ok t =>
      match extractTraits body rest with
      | .error e => .error e
      | .ok ts =>
        match t with
        | none => .ok ts
        | some tr => .ok (tr :: ts)

/-- `EventDefinition.to_event`.  `notification_body['event_type']` raises on
a missing key; a non-string event type would equally fault inside Python's
glob matcher, so it is modelled as the same error. -/
def EventDefinition.to_event (ed : EventDefinition) (now : Int) (body : Body) :
    Except String Event :=
  match lookup body "event_type" with
  | some (.vstr event_type) =>
    match extract_when now body with
    | .error e => .error e
    | .ok when =>
      match extractTraits body ed.traits with
      | .error e => .error e
      | .ok traits => .ok ⟨event_type, when, traits⟩
  | _ => .error "KeyError: event_type"

/-! ### `NotificationEventsConverter` -/

/-- The conversion engine: an ordered rule table. -/
structure NotificationEventsConverter where
  definitions : List EventDefinition
deriving DecidableEq, Repr

/-- Build the rule table in declaration order, propagating the first
definition error. -/
def buildDefinitions : List DefCfg → Except String (List EventDefinition)
  | [] => .ok []
  | c :: cs =>
    match mkEventDefinition c with
    | .error e => .error e
    | .ok d =>
      match buildDefinitions cs with
      | .error e => .error e
      | .ok ds => .ok (d :: ds)

/-- The synthesized catch-all rule configuration
`dict(event_type='*', traits=\x7b\x7d)`. -/
def catchallCfg : DefCfg := ⟨some ["*"], some []⟩

/-- `NotificationEventsConverter.__init__`: build every declared rule, then
append a synthesized catch-all unless one is already present or
`add_catchall` is off. -/
def mkConverter (events_config : List DefCfg) (add_catchall : Bool) :
    Except String NotificationEventsConverter :=
  match buildDefinitions events_config with
  | .error e => .error e
  | .ok defs =>
    if add_catchall && !(defs.any (·.is_catchall)) then
      match mkEventDefinition catchallCfg with
      | .error e => .error e
      | .ok cat => .ok ⟨defs ++ [cat]⟩
    else
      .ok ⟨defs⟩

/-- `NotificationEventsConverter.to_event`: read `event_type` and
`message_id` (missing keys raise), select the first definition in table
order whose matcher accepts the type, delegate to it; with no match the
notification is dropped (`None`). -/
def NotificationEventsConverter.to_event (conv : NotificationEventsConverter)
    (now : Int) (body : Body) : Except String (Option Event) :=
  match lookup body "event_type" with
  | some (.vstr event_type) =>
    match lookup body "message_id" with
    | some _ =>
      match conv.definitions.find? (fun d => d.match_type event_type) with
      | none => .ok none
      | some edef => (edef.to_event now body).map some
    | none => .error "KeyError: message_id"
  | _ => .error "KeyError: event_type"

/-! ### Concrete fixtures used as witness instantiations -/

/-- The compiled default trait table — the value of
`buildTraitDefs DEFAULT_TRAITS`. -/
def defaultTraitDefs : List (String × TraitDefinition) :=
  [("message_id", ⟨"message_id", .text, [["message_id"]]⟩),
   ("service", ⟨"service", .text, [["publisher_id"]]⟩),
   ("request_id", ⟨"request_id", .text, [["_context_request_id"]]⟩),
   ("tenant_id", ⟨"tenant_id", .text, [["_context_tenant"]]⟩)]

/-- The synthesized catch-all rule, as built by
`mkEventDefinition catchallCfg`. -/
def edCatchall : EventDefinition := ⟨["*"], [], defaultTraitDefs⟩

/-- A rule matching only image notifications. -/
def edImageW : EventDefinition := ⟨["image.*"], [], defaultTraitDefs⟩

/-- A rule matching every `.start` notification (broad). -/
def edStartW : EventDefinition := ⟨["*.start"], [], defaultTraitDefs⟩

/-- A rule matching exactly one event type (narrower than `edStartW`). -/
def edExactW : EventDefinition :=
  ⟨["compute.instance.create.start"], [], defaultTraitDefs⟩

/-- A minimal notification body. -/
def bodyW : Body :=
  [("event_type", .vstr "compute.instance.create.start"),
   ("message_id", .vstr "msg-1")]

/-- The event the catch-all rule produces from `bodyW` at `now = 0`. -/
def eventW : Event :=
  ⟨"compute.instance.create.start", 0, [⟨"message_id", .text, .tvText "msg-1"⟩]⟩

/-- A trait extractor with two path alternatives. -/
def tdUnionW : TraitDefinition :=
  ⟨"host", .text, [["payload", "host"], ["payload", "host2"]]⟩

/-- A document whose first alternative for `tdUnionW` resolves to null and
whose second resolves to a string. -/
def docW : Value :=
  .vmap [("payload", .vmap [("host", .vnull), ("host2", .vstr "h2")])]

/-- An int-typed trait extractor. -/
def tdIntW : TraitDefinition := ⟨"cnt", .int, [["payload", "count"]]⟩

/-- A rule carrying the int-typed extractor (and nothing else). -/
def edIntW : EventDefinition := ⟨["*"], [], [("cnt", tdIntW)]⟩

/-- A body whose `payload.count` is not a base-10 numeral. -/
def bodyIntW : Body :=
  [("event_type", .vstr "x.y"), ("message_id", .vstr "m2"),
   ("payload", .vmap [("count", .vstr "abc")])]

/-- A body carrying both `timestamp` and `_context_timestamp`. -/
def bodyTsW : Body :=
  [("timestamp", .vstr "1970-01-01T00:00:02Z"),
   ("_context_timestamp", .vstr "1970-01-01T00:00:01Z")]

/-- A body carrying only `_context_timestamp`. -/
def bodyCtxW : Body := [("_context_timestamp", .vstr "1970-01-01T00:00:01Z")]

/-- A body carrying neither timestamp field. -/
def bodyNoneW : Body := [("event_type", .vstr "x")]

/-- A body whose `timestamp` key is present but null, next to a parsable
`_context_timestamp`. -/
def bodyNullTsW : Body :=
  [("timestamp", .vnull),
   ("_context_timestamp", .vstr "1970-01-01T00:00:01Z")]

/-- A body carrying only an empty-string `_context_timestamp`. -/
def bodyEmptyCtxW : Body := [("_context_timestamp", .vstr "")]

/-! ### Supporting lemmas -/

/-- The fixture `defaultTraitDefs` is exactly what compiling
`DEFAULT_TRAITS` produces. -/
theorem buildTraitDefs_defaults :
    buildTraitDefs DEFAULT_TRAITS = .ok defaultTraitDefs := by decide

/-- The fixture `edCatchall` is exactly what building the synthesized
catch-all configuration produces. -/
theorem mkEventDefinition_catchall :
    mkEventDefinition catchallCfg = .ok edCatchall := by decide

/-- Glob character classes behave as in `fnmatch` (range example). -/
theorem fnmatch_bracket_range_example : fnmatch "abc" "a[b-d]c" = true := by
  decide

/-- The token list of the pattern `*` is the single `star` token. -/
theorem compileGlob_star : compileGlob "*".data = [GlobTok.star] := rfl

/-- A lone `star` token matches every string. -/
theorem tokMatch_star_nil (s : List Char) : tokMatch [GlobTok.star] s = true := by
  simp only [tokMatch, List.any_eq_true]
  exact ⟨[], (List.mem_tails _ _).mpr List.nil_suffix, rfl⟩

/-- The glob pattern `*` matches every string. -/
theorem fnmatch_star (s : String) : fnmatch s "*" = true := by
  show tokMatch (compileGlob "*".data) s.data = true
  rw [compileGlob_star]
  exact tokMatch_star_nil s.data

/-- The head of a filtered list is the first element satisfying the
predicate. -/
theorem head?_filter_eq_find? {α : Type} (p : α → Bool) (l : List α) :
    (l.filter p).head? = l.find? p := by
  induction l with
  | nil => rfl
  | cons x xs ih =>
    by_cases h : p x <;> simp [List.filter_cons, h, List.find?_cons, ih]

/-- `find?` on a list split around the first satisfying element returns that
element. -/
theorem find?_middle {α : Type} (p : α → Bool) (pre post : List α) (a : α)
    (hpre : ∀ x ∈ pre, p x = false) (ha : p a = true) :
    (pre ++ a :: post).find? p = some a := by
  rw [List.find?_append]
  have h1 : pre.find? p = none :=
    List.find?_eq_none.mpr (fun x hx => by simp [hpre x hx])
  rw [h1]
  simp [List.find?_cons, ha]

/-- When trait extraction succeeds, every extractor in the table succeeded
individually (no conversion error was swallowed). -/
theorem extractTraits_ok_of_mem (body : Body)
    (ts : List (String × TraitDefinition)) (res : List Trait)
    (h : extractTraits body ts = .ok res) :
    ∀ nt ∈ ts, ∃ o, nt.2.to_trait (.vmap body) = .ok o := by
  induction ts generalizing res with
  | nil => intro nt hnt; exact absurd hnt (List.not_mem_nil nt)
  | cons x xs ih =>
    intro nt hnt
    obtain ⟨n, td⟩ := x
    simp only [extractTraits] at h
    cases h1 : td.to_trait (.vmap body) with
    | error e => rw [h1] at h; exact absurd h (by simp)
    | ok t =>
      rw [h1] at h
      cases h2 : extractTraits body xs with
      | error e => rw [h2] at h; exact absurd h (by simp)
      | ok ts2 =>
        rw [h2] at h
        rcases List.mem_cons.mp hnt with heq | hmem
        · subst heq; exact ⟨t, h1⟩
        · exact ih ts2 h2 nt hmem

/-- Every trait in a successful extraction result was produced by some
extractor of the table (as a non-`None` result). -/
theorem extractTraits_mem_src (body : Body)
    (ts : List (String × TraitDefinition)) (res : List Trait)
    (h : extractTraits body ts = .ok res) :
    ∀ tr ∈ res, ∃ nt ∈ ts, nt.2.to_trait (.vmap body) = .ok (some tr) := by
  induction ts generalizing res with
  | nil =>
    intro tr htr
    simp only [extractTraits, Except.ok.injEq] at h
    subst h
    exact absurd htr (List.not_mem_nil tr)
  | cons x xs ih =>
    intro tr htr
    obtain ⟨n, td⟩ := x
    simp only [extractTraits] at h
    cases h1 : td.to_trait (.vmap body) with
    | error e => rw [h1] at h; exact absurd h (by simp)
    | ok t =>
      rw [h1] at h
      cases h2 : extractTraits body xs with
      | error e => rw [h2] at h; exact absurd h (by simp)
      | ok ts2 =>
        rw [h2] at h
        cases t with
        | none =>
          simp only [Except.ok.injEq] at h
          subst h
          obtain ⟨nt, hnt, hok⟩ := ih ts2 h2 tr htr
          exact ⟨nt, List.mem_cons_of_mem _ hnt, hok⟩
        | some tr2 =>
          simp only [Except.ok.injEq] at h
          subst h
          rcases List.mem_cons.mp htr with heq | hmem
          · subst heq; exact ⟨(n, td), List.mem_cons_self _ _, h1⟩
          · obtain ⟨nt, hnt, hok⟩ := ih ts2 h2 tr hmem
            exact ⟨nt, List.mem_cons_of_mem _ hnt, hok⟩

/-- A successful extraction yields at most one trait per table entry. -/
theorem extractTraits_length_le (body : Body)
    (ts : List (String × TraitDefinition)) (res : List Trait)
    (h : extractTraits body ts = .ok res) : res.length ≤ ts.length := by
  induction ts generalizing res with
  | nil =>
    simp only [extractTraits, Except.ok.injEq] at h
    subst h
    exact Nat.le_refl 0
  | cons x xs ih =>
    obtain ⟨n, td⟩ := x
    simp only [extractTraits] at h
    cases h1 : td.to_trait (.vmap body) with
    | error e => rw [h1] at h; exact absurd h (by simp)
    | ok t =>
      rw [h1] at h
      cases h2 : extractTraits body xs with
      | error e => rw [h2] at h; exact absurd h (by simp)
      | ok ts2 =>
        rw [h2] at h
        cases t with
        | none =>
          simp only [Except.ok.injEq] at h
          subst h
          exact Nat.le_succ_of_le (ih ts2 h2)
        | some tr2 =>
          simp only [Except.ok.injEq] at h
          subst h
          exact Nat.succ_le_succ (ih ts2 h2)

/-- A text-typed extractor never raises: stringification is total. -/
theorem to_trait_text_ok (td : TraitDefinition) (doc : Value)
    (h : td.traitType = TraitType.text) : ∃ o, td.to_trait doc = .ok o := by
  unfold TraitDefinition.to_trait
  cases hfv : foundValues td doc with
  | nil => exact ⟨none, rfl⟩
  | cons v vs =>
    rw [h]
    exact ⟨some ⟨td.name, .text, .tvText (pyStr v)⟩, rfl⟩

/-- Extraction over an all-text table always succeeds, with at most one
trait per entry. -/
theorem extractTraits_text_ok (body : Body)
    (ts : List (String × TraitDefinition))
    (h : ∀ nt ∈ ts, nt.2.traitType = TraitType.text) :
    ∃ res, extractTraits body ts = .ok res ∧ res.length ≤ ts.length := by
  induction ts with
  | nil => exact ⟨[], rfl, Nat.le_refl 0⟩
  | cons x xs ih =>
    obtain ⟨n, td⟩ := x
    obtain ⟨res, hres, hlen⟩ := ih (fun nt hnt => h nt (List.mem_cons_of_mem _ hnt))
    obtain ⟨o, ho⟩ := to_trait_text_ok td (.vmap body) (h (n, td) (List.mem_cons_self _ _))
    cases o with
    | none =>
      refine ⟨res, ?_, Nat.le_succ_of_le hlen⟩
      simp only [extractTraits]
      rw [ho, hres]
    | some tr =>
      refine ⟨tr :: res, ?_, Nat.succ_le_succ hlen⟩
      simp only [extractTraits]
      rw [ho, hres]

/-- A catch-all definition's matcher accepts every event type. -/
theorem catchall_match_type (d : EventDefinition) (et : String)
    (h : d.is_catchall = true) : d.match_type et = true := by
  rw [EventDefinition.is_catchall, Bool.and_eq_true] at h
  obtain ⟨hmem, hemp⟩ := h
  have hinc : d.includedTypes.any (fun t => fnmatch et t) = true :=
    List.any_eq_true.mpr ⟨"*", List.mem_of_elem_eq_true hmem, fnmatch_star et⟩
  have hexc : d.excludedTypes = [] := List.isEmpty_iff.mp hemp
  simp only [EventDefinition.match_type, EventDefinition.included_type,
    EventDefinition.excluded_type, hinc, hexc]
  rfl

/-- An event-type list of exclusion entries only partitions into no
inclusions and one exclusion per entry. -/
theorem partitionTypes_all_excl (ts : List String)
    (h : ∀ t ∈ ts, startsWithBang t = true) :
    (partitionTypes ts).1 = [] ∧ (partitionTypes ts).2.length = ts.length := by
  induction ts with
  | nil => exact ⟨rfl, rfl⟩
  | cons t ts ih =>
    obtain ⟨h1, h2⟩ := ih (fun x hx => h x (List.mem_cons_of_mem _ hx))
    have ht := h t (List.mem_cons_self _ _)
    simp [partitionTypes, ht, h1, h2]

/-! ### The claims -/

/-- Claim C1: for every rule table and notification, `Convert`
(`NotificationEventsConverter.to_event`) selects at most one rule — the
first in declaration order whose matcher accepts the notification's
event type — and delegates to that rule's `to_event`.  Rules after the
first match are never consulted: the result is independent of `post`, even
when a later rule's pattern is a more specific match. -/
theorem C1_first_match_wins (conv : NotificationEventsConverter) (now : Int)
    (body : Body) (et : String) (pre post : List EventDefinition)
    (d : EventDefinition)
    (htable : conv.definitions = pre ++ d :: post)
    (hpre : ∀ d2 ∈ pre, d2.match_type et = false)
    (hd : d.match_type et = true)
    (het : lookup body "event_type" = some (.vstr et))
    (hmid : (lookup body "message_id").isSome = true) :
    conv.to_event now body = (d.to_event now body).map some := by
  obtain ⟨mv, hmv⟩ := Option.isSome_iff_exists.mp hmid
  have hfind : conv.definitions.find? (fun d2 => d2.match_type et) = some d := by
    rw [htable]
    exact find?_middle _ pre post d hpre hd
  simp only [NotificationEventsConverter.to_event, het, hmv, hfind]

/-- Witness for C1: with the table `[image.*, *.start,
compute.instance.create.start]` and the event type
`compute.instance.create.start`, the broad second rule wins over the exact
third one. -/
theorem C1_first_match_wins_witness :
    NotificationEventsConverter.to_event ⟨[edImageW, edStartW, edExactW]⟩ 0 bodyW =
      (edStartW.to_event 0 bodyW).map some :=
  C1_first_match_wins ⟨[edImageW, edStartW, edExactW]⟩ 0 bodyW
    "compute.instance.create.start" [edImageW] [edExactW] edStartW rfl
    (by intro d2 h2; rw [List.mem_singleton] at h2; subst h2; decide)
    (by decide) rfl rfl

/-- Claim C2 (counterexample): the matcher built from the event_type
specification `["*", "foo"]` has `is_catchall = true` although its include
pattern set is `["*", "foo"]`, not exactly `{*}` — the code tests
membership of `*`, not set equality. -/
theorem C2_counterexample :
    (mkEventDefinition ⟨some ["*", "foo"], some []⟩).map
        (fun ed => (ed.is_catchall, decide (ed.includedTypes = ["*"]))) =
      .ok (true, false) := by decide

/-- Claim C2 (amended): for every matcher built from an event_type
specification, `is_catchall` is true iff `*` is among the include patterns
and the exclude pattern set is empty. -/
theorem C2_is_catchall_iff (cfg : DefCfg) (ed : EventDefinition)
    (_hok : mkEventDefinition cfg = .ok ed) :
    ed.is_catchall = true ↔ "*" ∈ ed.includedTypes ∧ ed.excludedTypes = [] := by
  simp [EventDefinition.is_catchall, List.isEmpty_iff]

/-- Witness for C2 (amended): the synthesized catch-all matcher satisfies
both sides of the equivalence. -/
theorem C2_is_catchall_iff_witness :
    edCatchall.is_catchall = true ↔
      "*" ∈ edCatchall.includedTypes ∧ edCatchall.excludedTypes = [] :=
  C2_is_catchall_iff catchallCfg edCatchall (by decide)

/-- Claim C3: a matcher accepts a candidate exactly when at least one
include pattern glob-matches it and no exclude pattern does; individual
patterns use shell-glob semantics — `*` matches any run of characters
(witnessed in general by the `*` pattern and the dotted examples), `?`
exactly one character. -/
theorem C3_match_type_semantics (ed : EventDefinition) (c : String) :
    (ed.match_type c = true ↔
      (∃ p ∈ ed.includedTypes, fnmatch c p = true) ∧
        ∀ p ∈ ed.excludedTypes, fnmatch c p = false) ∧
    fnmatch "compute.instance.create.start" "compute.instance.*" = true ∧
    fnmatch "image.upload" "compute.instance.*" = false ∧
    fnmatch "compute.instance.create.start" "*.start" = true ∧
    (∀ s : String, fnmatch s "*" = true) ∧
    fnmatch "a" "?" = true ∧ fnmatch "ab" "?" = false := by
  refine ⟨?_, by decide, by decide, by decide, fnmatch_star, by decide, by decide⟩
  simp only [EventDefinition.match_type, EventDefinition.included_type,
    EventDefinition.excluded_type, Bool.and_eq_true, Bool.not_eq_true',
    List.any_eq_true, List.any_eq_false, Bool.not_eq_true]

/-- Claim C4: a specification with at least one `!`-prefixed exclusion
entry and no inclusion entries receives the implicit `*` inclusion, and the
built matcher accepts exactly the candidates that match none of the
exclusion patterns. -/
theorem C4_exclusion_only_implicit_star (ets : List String)
    (tcs : List (String × TraitCfg)) (ed : EventDefinition) (c : String)
    (hne : ets ≠ [])
    (hall : ∀ t ∈ ets, startsWithBang t = true)
    (hok : mkEventDefinition ⟨some ets, some tcs⟩ = .ok ed) :
    ed.includedTypes = ["*"] ∧
      (ed.match_type c = true ↔ ed.excluded_type c = false) := by
  obtain ⟨hfst, hsnd⟩ := partitionTypes_all_excl ets hall
  have hsne : (partitionTypes ets).2 ≠ [] := by
    intro hnil
    rw [hnil] at hsnd
    exact hne (List.eq_nil_of_length_eq_zero hsnd.symm)
  have hdef : buildTraitDefs DEFAULT_TRAITS = .ok defaultTraitDefs := by decide
  simp only [mkEventDefinition, hdef] at hok
  cases hdecl : buildTraitDefs tcs with
  | error e => rw [hdecl] at hok; exact absurd hok (by simp)
  | ok ds =>
    rw [hdecl] at hok
    simp only [Except.ok.injEq] at hok
    subst hok
    have hinc :
        (if (partitionTypes ets).2 ≠ [] ∧ (partitionTypes ets).1 = []
         then ["*"] else (partitionTypes ets).1) = ["*"] :=
      if_pos ⟨hsne, hfst⟩
    refine ⟨hinc, ?_⟩
    simp only [EventDefinition.match_type, EventDefinition.included_type,
      EventDefinition.excluded_type, hinc]
    simp [fnmatch_star c, Bool.not_eq_true']

/-- Witness for C4: the exclusion-only specification `["!image.*"]` widens
to include `*` and accepts `compute.foo` (which matches no exclusion). -/
theorem C4_exclusion_only_implicit_star_witness :
    (⟨["*"], ["image.*"], defaultTraitDefs⟩ : EventDefinition).includedTypes
        = ["*"] ∧
      ((⟨["*"], ["image.*"], defaultTraitDefs⟩ : EventDefinition).match_type
          "compute.foo" = true ↔
        (⟨["*"], ["image.*"], defaultTraitDefs⟩ :
            EventDefinition).excluded_type "compute.foo" = false) :=
  C4_exclusion_only_implicit_star ["!image.*"] [] _ "compute.foo"
    (by decide) (by decide) (by decide)

/-- Claim C5: trait extraction evaluates the declared field-path
alternatives in order and converts the first resolved non-null value; when
every alternative is absent or resolves to null the extractor yields
`None`, and `to_event` keeps only non-`None` results, so every trait of a
produced event stems from some extractor's non-null value. -/
theorem C5_first_non_null_or_omitted (td : TraitDefinition) (doc : Value)
    (ed : EventDefinition) (now : Int) (body : Body) (e : Event)
    (hok : ed.to_event now body = .ok e) :
    ((resolvedValues td.fields doc).find? (fun v => !v.isNone) = none →
        td.to_trait doc = .ok none) ∧
    (∀ v, (resolvedValues td.fields doc).find? (fun v => !v.isNone) = some v →
        td.to_trait doc =
          (convert_value td.traitType v).map
            (fun tv => some ⟨td.name, td.traitType, tv⟩)) ∧
    (∀ tr ∈ e.traits, ∃ nt ∈ ed.traits,
        nt.2.to_trait (.vmap body) = .ok (some tr)) := by
  have hfk : foundValues td doc =
      (resolvedValues td.fields doc).filter (fun v => !v.isNone) := rfl
  refine ⟨?_, ?_, ?_⟩
  · intro hnone
    have hnil : foundValues td doc = [] := by
      rw [hfk]
      apply List.head?_eq_none_iff.mp
      rw [head?_filter_eq_find?]
      exact hnone
    simp only [TraitDefinition.to_trait, hnil]
  · intro v hv
    have hh : (foundValues td doc).head? = some v := by
      rw [hfk, head?_filter_eq_find?]
      exact hv
    cases hfv : foundValues td doc with
    | nil => rw [hfv] at hh; exact absurd hh (by simp)
    | cons w rest =>
      rw [hfv] at hh
      simp only [List.head?_cons, Option.some.injEq] at hh
      subst hh
      simp only [TraitDefinition.to_trait, hfv]
  · intro tr htr
    simp only [EventDefinition.to_event] at hok
    cases hle : lookup body "event_type" with
    | none => rw [hle] at hok; exact absurd hok (by simp)
    | some v0 =>
      rw [hle] at hok
      cases v0
      case vstr et =>
        cases hw : extract_when now body with
        | error e2 => rw [hw] at hok; exact absurd hok (by simp)
        | ok w =>
          rw [hw] at hok
          cases hx : extractTraits body ed.traits with
          | error e2 => rw [hx] at hok; exact absurd hok (by simp)
          | ok res =>
            rw [hx] at hok
            simp only [Except.ok.injEq] at hok
            subst hok
            exact extractTraits_mem_src body ed.traits res hx tr htr
      all_goals simp at hok

/-- Witness for C5: with two path alternatives whose first resolves to
null, the extractor converts the second alternative's value; instantiated
alongside a concrete successful event conversion. -/
theorem C5_first_non_null_or_omitted_witness :
    edCatchall.to_event 0 bodyW = .ok eventW ∧
    tdUnionW.to_trait docW =
      (convert_value tdUnionW.traitType (.vstr "h2")).map
        (fun tv => some ⟨tdUnionW.name, tdUnionW.traitType, tv⟩) :=
  ⟨by decide,
   (C5_first_non_null_or_omitted tdUnionW docW edCatchall 0 bodyW eventW
      (by decide)).2.1 (.vstr "h2") rfl⟩

/-- Claim C6: building the engine from an empty rule configuration with
catch-all injection enabled yields exactly one rule — a synthesized
catch-all whose trait table is exactly the four compiled default trait
specs — and a notification carrying the required keys (whose
when-extraction succeeds) converts to a non-`None` event with at most 4
traits. -/
theorem C6_empty_config_catchall (now : Int) (body : Body) (et : String)
    (w : Int)
    (het : lookup body "event_type" = some (.vstr et))
    (hmid : (lookup body "message_id").isSome = true)
    (hwhen : extract_when now body = .ok w) :
    ∃ conv, mkConverter [] true = .ok conv ∧
      conv.definitions.length = 1 ∧
      (∀ d ∈ conv.definitions, d.is_catchall = true ∧
        buildTraitDefs DEFAULT_TRAITS = .ok d.traits) ∧
      ∃ e, conv.to_event now body = .ok (some e) ∧ e.traits.length ≤ 4 := by
  obtain ⟨mv, hmv⟩ := Option.isSome_iff_exists.mp hmid
  obtain ⟨res, hres, hlen⟩ :=
    extractTraits_text_ok body defaultTraitDefs (by decide)
  refine ⟨⟨[edCatchall]⟩, by decide, rfl, ?_, ⟨et, w, res⟩, ?_, ?_⟩
  · intro d hd
    rw [List.mem_singleton] at hd
    subst hd
    exact ⟨by decide, by decide⟩
  · have hm : edCatchall.match_type et = true :=
      catchall_match_type edCatchall et (by decide)
    have hfind :
        List.find? (fun d => d.match_type et) [edCatchall] = some edCatchall := by
      simp [List.find?_cons, hm]
    have hcat : edCatchall.traits = defaultTraitDefs := rfl
    simp only [NotificationEventsConverter.to_event, het, hmv, hfind,
      EventDefinition.to_event, hwhen, hcat, hres, Except.map]
  · exact le_trans hlen (by decide)

/-- Witness for C6: the concrete body `bodyW` converts through the
synthesized catch-all table. -/
theorem C6_empty_config_catchall_witness :
    extract_when 0 bodyW = .ok 0 ∧
    (∃ conv, mkConverter [] true = .ok conv ∧
      conv.definitions.length = 1 ∧
      (∀ d ∈ conv.definitions, d.is_catchall = true ∧
        buildTraitDefs DEFAULT_TRAITS = .ok d.traits) ∧
      ∃ e, conv.to_event 0 bodyW = .ok (some e) ∧ e.traits.length ≤ 4) :=
  ⟨rfl, C6_empty_config_catchall 0 bodyW "compute.instance.create.start" 0
    rfl rfl rfl⟩

/-- Claim C7: `Convert` returns `None` exactly when no rule's matcher
accepts the notification's event type; with an empty rule configuration and
dropping allowed (no catch-all injection) every input yields `None`, and
with catch-all injection enabled (dropping disallowed) `Convert` never
returns `None`. -/
theorem C7_nil_iff_no_match (now : Int) (body : Body) (et : String)
    (conv convE convC : NotificationEventsConverter) (cfgs : List DefCfg)
    (het : lookup body "event_type" = some (.vstr et))
    (hmid : (lookup body "message_id").isSome = true)
    (hE : mkConverter [] false = .ok convE)
    (hC : mkConverter cfgs true = .ok convC) :
    (conv.to_event now body = .ok none ↔
      ∀ d ∈ conv.definitions, d.match_type et = false) ∧
    (convE.definitions = [] ∧ convE.to_event now body = .ok none) ∧
    convC.to_event now body ≠ .ok none := by
  obtain ⟨mv, hmv⟩ := Option.isSome_iff_exists.mp hmid
  have key : ∀ cv : NotificationEventsConverter,
      cv.to_event now body = .ok none ↔
        ∀ d ∈ cv.definitions, d.match_type et = false := by
    intro cv
    simp only [NotificationEventsConverter.to_event, het, hmv]
    cases hfind : cv.definitions.find? (fun d => d.match_type et) with
    | none =>
      constructor
      · intro _ d hd
        have hne := List.find?_eq_none.mp hfind d hd
        simpa using hne
      · intro _; rfl
    | some d =>
      constructor
      · intro habs
        have hred : Except.map some (d.to_event now body) = Except.ok none := habs
        cases hde : d.to_event now body with
        | error e2 => rw [hde] at hred; exact absurd hred (by simp [Except.map])
        | ok ev => rw [hde] at hred; exact absurd hred (by simp [Except.map])
      · intro hall
        have hmem := List.mem_of_find?_eq_some hfind
        have hp := List.find?_some hfind
        simp only [hall d hmem] at hp
        exact absurd hp (by simp)
  have h0 : mkConverter [] false = .ok (⟨[]⟩ : NotificationEventsConverter) := by
    decide
  rw [h0] at hE
  simp only [Except.ok.injEq] at hE
  subst hE
  have hcat : ∃ d ∈ convC.definitions, d.is_catchall = true := by
    have hcatok : mkEventDefinition catchallCfg = .ok edCatchall := by decide
    simp only [mkConverter, hcatok] at hC
    split at hC
    next e2 heq => exact absurd hC (by simp)
    next ds hds =>
      split at hC
      next hcond =>
        simp only [Except.ok.injEq] at hC
        subst hC
        exact ⟨edCatchall, by simp, by decide⟩
      next hcond =>
        simp only [Except.ok.injEq] at hC
        subst hC
        have hany : ds.any (fun d => d.is_catchall) = true := by
          cases hb2 : ds.any (fun d => d.is_catchall) with
          | true => rfl
          | false => exact absurd (by simp [hb2]) hcond
        obtain ⟨d, hd, hdc⟩ := List.any_eq_true.mp hany
        exact ⟨d, hd, hdc⟩
  refine ⟨key conv, ⟨rfl, ?_⟩, ?_⟩
  · exact (key ⟨[]⟩).mpr (fun d hd => absurd hd (List.not_mem_nil d))
  · intro habs
    obtain ⟨d, hd, hdc⟩ := hcat
    have hfalse := (key convC).mp habs d hd
    rw [catchall_match_type d et hdc] at hfalse
    exact absurd hfalse (by simp)

/-- Witness for C7: empty tables with and without catch-all injection, on a
concrete notification body. -/
theorem C7_nil_iff_no_match_witness :
    mkConverter [] false = .ok (⟨[]⟩ : NotificationEventsConverter) ∧
    mkConverter [] true = .ok (⟨[edCatchall]⟩ : NotificationEventsConverter) ∧
    ((NotificationEventsConverter.to_event ⟨[edCatchall]⟩ 0 bodyW = .ok none ↔
      ∀ d ∈ (⟨[edCatchall]⟩ : NotificationEventsConverter).definitions,
        d.match_type "compute.instance.create.start" = false) ∧
    ((⟨[]⟩ : NotificationEventsConverter).definitions = [] ∧
      NotificationEventsConverter.to_event ⟨[]⟩ 0 bodyW = .ok none) ∧
    NotificationEventsConverter.to_event ⟨[edCatchall]⟩ 0 bodyW ≠ .ok none) :=
  ⟨by decide, by decide,
   C7_nil_iff_no_match 0 bodyW "compute.instance.create.start"
     ⟨[edCatchall]⟩ ⟨[]⟩ ⟨[edCatchall]⟩ [] rfl rfl (by decide) (by decide)⟩

/-- Claim C8: an Int-typed trait parses its first non-null resolved raw
value as a base-10 integer; on parse failure a conversion error is raised
rather than the trait being skipped, and it propagates uncaught out of the
rule's `to_event` and out of the engine's `to_event` — no partially
populated event is returned. -/
theorem C8_int_conversion_error_propagates (td : TraitDefinition)
    (body : Body) (v : Value) (rest : List Value) (err : String)
    (ed : EventDefinition) (nm : String)
    (conv : NotificationEventsConverter) (et : String) (now : Int)
    (htype : td.traitType = .int)
    (hfound : foundValues td (.vmap body) = v :: rest)
    (hfail : pyInt v = .error err)
    (hmem : (nm, td) ∈ ed.traits)
    (het : lookup body "event_type" = some (.vstr et))
    (hmid : (lookup body "message_id").isSome = true)
    (hfind : conv.definitions.find? (fun d => d.match_type et) = some ed) :
    td.to_trait (.vmap body) = .error err ∧
    (∃ m1, ed.to_event now body = .error m1) ∧
    (∃ m2, conv.to_event now body = .error m2) := by
  have h1 : td.to_trait (.vmap body) = .error err := by
    simp only [TraitDefinition.to_trait, hfound, htype]
    simp only [convert_value, hfail, Except.map]
  have hnotok : ∀ res, extractTraits body ed.traits ≠ .ok res := by
    intro res hres
    obtain ⟨o, ho⟩ := extractTraits_ok_of_mem body ed.traits res hres (nm, td) hmem
    rw [h1] at ho
    exact absurd ho (by simp)
  have h2 : ∃ m1, ed.to_event now body = .error m1 := by
    simp only [EventDefinition.to_event, het]
    cases hw : extract_when now body with
    | error e2 => exact ⟨e2, rfl⟩
    | ok w =>
      cases hx : extractTraits body ed.traits with
      | error e2 => exact ⟨e2, rfl⟩
      | ok res => exact absurd hx (hnotok res)
  obtain ⟨m1, hm1⟩ := h2
  obtain ⟨mv, hmv⟩ := Option.isSome_iff_exists.mp hmid
  refine ⟨h1, ⟨m1, hm1⟩, ⟨m1, ?_⟩⟩
  simp only [NotificationEventsConverter.to_event, het, hmv, hfind, hm1,
    Except.map]

/-- Witness for C8: `payload.count = "abc"` under an int-typed trait makes
the trait, the rule and the engine all fail with the conversion error. -/
theorem C8_int_conversion_error_propagates_witness :
    tdIntW.to_trait (.vmap bodyIntW) =
      .error "invalid literal for int() with base 10: abc" ∧
    (∃ m1, edIntW.to_event 0 bodyIntW = .error m1) ∧
    (∃ m2, NotificationEventsConverter.to_event ⟨[edIntW]⟩ 0 bodyIntW =
      .error m2) :=
  C8_int_conversion_error_propagates tdIntW bodyIntW (.vstr "abc") []
    "invalid literal for int() with base 10: abc" edIntW "cnt" ⟨[edIntW]⟩
    "x.y" 0 rfl rfl (by decide) (by decide) rfl rfl (by decide)

/-- Claim C9: when-extraction precedence — a notification carrying a truthy
`timestamp` value takes its generation time from `timestamp` (parsed as
ISO-8601 normalised to UTC) regardless of `_context_timestamp`; with
`timestamp` absent, a truthy `_context_timestamp` is used; with neither
field, the current wall-clock time (`now`) is used. -/
theorem C9_when_precedence (now : Int) (body : Body) (s s2 : String)
    (t t2 : Int) :
    (lookup body "timestamp" = some (.vstr s) → truthy (.vstr s) = true →
      parse_isotime_utc s = .ok t → extract_when now body = .ok t) ∧
    (lookup body "timestamp" = none →
      lookup body "_context_timestamp" = some (.vstr s2) →
      truthy (.vstr s2) = true → parse_isotime_utc s2 = .ok t2 →
      extract_when now body = .ok t2) ∧
    (lookup body "timestamp" = none →
      lookup body "_context_timestamp" = none →
      extract_when now body = .ok now) := by
  refine ⟨?_, ?_, ?_⟩
  · intro hts htr hp
    simp [extract_when, hts, htr, hp]
  · intro hts hctx htr hp
    simp [extract_when, hts, hctx, htr, hp]
  · intro hts hctx
    simp [extract_when, hts, hctx, truthy]

/-- Witness for C9: the three precedence cases on concrete bodies (both
fields, only the context field, neither). -/
theorem C9_when_precedence_witness :
    extract_when 7 bodyTsW = .ok 2000000 ∧
    extract_when 7 bodyCtxW = .ok 1000000 ∧
    extract_when 7 bodyNoneW = .ok 7 :=
  ⟨(C9_when_precedence 7 bodyTsW "1970-01-01T00:00:02Z" "" 2000000 0).1
      rfl rfl (by decide),
   (C9_when_precedence 7 bodyCtxW "" "1970-01-01T00:00:01Z" 0 1000000).2.1
      rfl rfl rfl (by decide),
   (C9_when_precedence 7 bodyNoneW "" "" 0 0).2.2 rfl rfl⟩

/-- Claim C10: a `timestamp` key present with a falsy (null or
empty-string) value short-circuits — `_context_timestamp` is never
consulted and the current wall-clock time is used; the fallback to
`_context_timestamp` happens only when the `timestamp` key is absent, and a
falsy value there likewise yields the current wall-clock time. -/
theorem C10_falsy_timestamp_shortcircuit (now : Int) (body : Body)
    (v v2 : Value) :
    (lookup body "timestamp" = some v → truthy v = false →
      extract_when now body = .ok now) ∧
    (lookup body "timestamp" = none →
      lookup body "_context_timestamp" = some v2 → truthy v2 = false →
      extract_when now body = .ok now) := by
  refine ⟨?_, ?_⟩
  · intro hts htr
    simp [extract_when, hts, htr]
  · intro hts hctx htr
    simp [extract_when, hts, hctx, htr]

/-- Witness for C10: a null `timestamp` next to a parsable
`_context_timestamp` still yields `now`; an empty-string context timestamp
yields `now` as well. -/
theorem C10_falsy_timestamp_shortcircuit_witness :
    extract_when 7 bodyNullTsW = .ok 7 ∧ extract_when 7 bodyEmptyCtxW = .ok 7 :=
  ⟨(C10_falsy_timestamp_shortcircuit 7 bodyNullTsW .vnull .vnull).1 rfl rfl,
   (C10_falsy_timestamp_shortcircuit 7 bodyEmptyCtxW .vnull (.vstr "")).2
      rfl rfl rfl⟩

end Ceilometer
